import Mathlib

/-!
Verification of the QR-Scanner browser client (static/js) against its
specification. The development shallowly embeds:

* the `SocketService` event client of app.js (scan-id filtering, callback
  fan-out with per-callback fault isolation, connect handshake, emit guard,
  constructor and disconnect lifecycle);
* the page-number resolution `_extractPageNumber` duplicated in
  results-display.js and ai-display.js;
* the `FormHandler` validators `isValidUTMFormat` and `isValidDomain` of
  results-display.js, together with the UTM branch of
  `validateAdvancedFields`.

JavaScript values that the embedded code inspects only for truthiness or
identity are modelled by `JValue` (numbers, strings, null); an absent object
field is `Option.none`. Strings fed to the validators are modelled as their
character lists so that the semantics of `String.prototype.split` with a
one-character separator is captured exactly by `splitChar`.
-/

namespace QRScan

/-- A JavaScript value as far as the embedded code observes it: a number, a
string or null. An absent (undefined) field is modelled separately as
`Option.none` at each use site. -/
inductive JValue where
  | jnum (n : Int)
  | jstr (s : String)
  | jnull
deriving DecidableEq, Repr

/-- JavaScript truthiness of a `JValue`: 0, the empty string and null are
falsy, every other modelled value is truthy. -/
def JValue.truthy : JValue → Bool
  | .jnum n => n != 0
  | .jstr s => s != ""
  | .jnull => false

/-- Truthiness of a possibly-absent field: an absent field reads as
undefined, which is falsy. -/
def fieldTruthy : Option JValue → Bool
  | none => false
  | some v => v.truthy

/-! ## Page-number resolution (results-display.js and ai-display.js) -/

/-- The `source_location` sub-object of an extraction item, as far as
`_extractPageNumber` reads it. -/
structure SourceLocation where
  page : Option JValue
deriving DecidableEq, Repr

/-- The `attributes` sub-object of an extraction item, as far as
`_extractPageNumber` reads it. -/
structure Attributes where
  page : Option JValue
deriving DecidableEq, Repr

/-- An AI extraction item, restricted to the fields that page-number
resolution probes. -/
structure ExtractionItem where
  page : Option JValue
  attributes : Option Attributes
  source_location : Option SourceLocation
deriving DecidableEq, Repr

/-- Embedding of the `_extractPageNumber(item)` method, identical in
`ResultsDisplay` and `AIDisplay` up to the sentinel string: the if/else-if
chain tests `item.page`, then `item.attributes && item.attributes.page`,
then `item.source_location && item.source_location.page` for truthiness and
returns the first truthy value, else the sentinel. -/
def extractPageNumberCore (sentinel : String) (item : ExtractionItem) : JValue :=
  if fieldTruthy item.page then
    item.page.getD .jnull
  else if (match item.attributes with
           | some a => fieldTruthy a.page
           | none => false) then
    ((item.attributes.map Attributes.page).getD none).getD .jnull
  else if (match item.source_location with
           | some sl => fieldTruthy sl.page
           | none => false) then
    ((item.source_location.map SourceLocation.page).getD none).getD .jnull
  else
    .jstr sentinel

/-- The `ResultsDisplay._extractPageNumber` method of results-display.js,
whose sentinel is the string "unknown". -/
def ResultsDisplay.extractPageNumber : ExtractionItem → JValue :=
  extractPageNumberCore "unknown"

/-- The `AIDisplay._extractPageNumber` method of ai-display.js, whose
sentinel is the string "N/A". -/
def AIDisplay.extractPageNumber : ExtractionItem → JValue :=
  extractPageNumberCore "N/A"

/-! ## The SocketService event client (app.js)

The client's observable behaviour is rendered as traces of `Action`s: the
socket handlers and methods are functions from the service state to the list
of externally visible actions they perform, in order. A registered callback
is modelled by its behaviour on one invocation: it either returns normally
or throws an error message, which `_triggerCallbacks` catches and logs. -/

/-- An inbound or outbound message payload, restricted to what the client
inspects: the `scan_id` field (absent on malformed payloads) and an opaque
remainder carrying the kind-specific data. -/
structure Payload where
  scan_id : Option String
  body : String
deriving DecidableEq, Repr

/-- The outcome of invoking one callback: a normal return, or a raised
error carrying its message. -/
inductive CallResult where
  | ok
  | threw (msg : String)
deriving DecidableEq, Repr

/-- A registered listener, modelled by its behaviour on the payload it is
handed (`none` models the JavaScript `null` passed for connect and
disconnect events). -/
abbrev Callback := Option Payload → CallResult

/-- The five event kinds of the listener registry object
`this.callbacks = \x7bprogress, complete, error, connect, disconnect\x7d`. -/
inductive EventKind where
  | progress
  | complete
  | error
  | connect
  | disconnect
deriving DecidableEq, Repr

/-- The listener registry: one ordered callback list per event kind, as in
the constructor of `SocketService`. -/
structure CallbackRegistry where
  progress : List Callback
  complete : List Callback
  error : List Callback
  connect : List Callback
  disconnect : List Callback

/-- Indexing the registry by event name, as `this.callbacks[event]` does. -/
def CallbackRegistry.lookup (r : CallbackRegistry) : EventKind → List Callback
  | .progress => r.progress
  | .complete => r.complete
  | .error => r.error
  | .connect => r.connect
  | .disconnect => r.disconnect

/-- The underlying Socket.IO socket object, as far as the client reads it:
only its `connected` flag is ever inspected. -/
structure Socket where
  connected : Bool
deriving DecidableEq, Repr

/-- The `SocketService` instance state: the bound scan identifier, the
optional socket reference (`null` before `connect()` and after
`disconnect()`), and the listener registry. -/
structure SocketService where
  scanId : String
  socket : Option Socket
  callbacks : CallbackRegistry

/-- An externally visible action of the client, in the order performed:
an upstream `socket.emit`, the invocation of the listener at a given
registry position with the data it is passed, the `console.error` log of an
error caught from a listener, the `console.warn` of `emit` on a
disconnected socket, and the closing of the socket by `disconnect()`. -/
inductive Action where
  | upstream (eventName : String) (data : Payload)
  | invoke (kind : EventKind) (idx : Nat) (data : Option Payload)
  | logErr (kind : EventKind) (idx : Nat) (msg : String)
  | warn (eventName : String)
  | closeSocket
deriving DecidableEq, Repr

/-- One step of `_triggerCallbacks`: the `forEach` body invokes each
callback inside a try/catch whose catch arm logs the error and falls
through to the next callback. `i` is the registry position of the head
callback, recorded so that invocation order is observable in the trace. -/
def triggerFrom (k : EventKind) (d : Option Payload) : Nat → List Callback → List Action
  | _, [] => []
  | i, cb :: rest =>
    Action.invoke k i d ::
      ((match cb d with
        | .ok => []
        | .threw m => [Action.logErr k i m]) ++ triggerFrom k d (i + 1) rest)

/-- Embedding of `SocketService._triggerCallbacks(event, data = null)`:
runs every callback of the named list in registration order, catching and
logging per-callback errors. -/
def SocketService.triggerCallbacks (svc : SocketService) (k : EventKind)
    (d : Option Payload := none) : List Action :=
  triggerFrom k d 0 (svc.callbacks.lookup k)

/-- The three inbound application message kinds the client listens for. -/
inductive MsgKind where
  | scanProgress
  | scanComplete
  | scanError
deriving DecidableEq, Repr

/-- Which listener list each inbound message kind is routed to by its
`socket.on` handler. -/
def MsgKind.eventOf : MsgKind → EventKind
  | .scanProgress => .progress
  | .scanComplete => .complete
  | .scanError => .error

/-- Embedding of the three `socket.on("scan_progress" | "scan_complete" |
"scan_error", data => ...)` handlers installed by `connect()`: each checks
`data.scan_id === this.scanId` and, on a match, hands the full payload to
`_triggerCallbacks` for its event kind; otherwise it does nothing. -/
def SocketService.handleInbound (svc : SocketService) (mk : MsgKind) (d : Payload) :
    List Action :=
  if d.scan_id = some svc.scanId then
    svc.triggerCallbacks mk.eventOf (some d)
  else
    []

/-- Embedding of the `socket.on("connect", ...)` handler installed by
`connect()`: it emits `client_ready` with the bound scan id, then triggers
the connect listeners with the default `null` data. -/
def SocketService.onChannelConnect (svc : SocketService) : List Action :=
  Action.upstream "client_ready" { scan_id := some svc.scanId, body := "" } ::
    svc.triggerCallbacks .connect

/-- Embedding of the `socket.on("disconnect", ...)` handler installed by
`connect()`: it triggers the disconnect listeners with the default `null`
data. -/
def SocketService.onChannelDisconnect (svc : SocketService) : List Action :=
  svc.triggerCallbacks .disconnect

/-- Embedding of the `SocketService` constructor: stores the scan id,
leaves the socket reference null, and creates the five empty listener
lists. -/
def SocketService.construct (scanId : String) : SocketService :=
  { scanId := scanId
    socket := none
    callbacks :=
      { progress := []
        complete := []
        error := []
        connect := []
        disconnect := [] } }

/-- Embedding of `SocketService.disconnect()`: when a socket reference is
held, close it and drop the reference; otherwise do nothing. Returns the
new state together with the actions performed. -/
def SocketService.disconnect (svc : SocketService) : SocketService × List Action :=
  match svc.socket with
  | some _ => ({ svc with socket := none }, [Action.closeSocket])
  | none => (svc, [])

/-- The condition `this.socket && this.socket.connected` guarding the send
in `emit`. -/
def SocketService.connected (svc : SocketService) : Bool :=
  match svc.socket with
  | some s => s.connected
  | none => false

/-- Embedding of `SocketService.emit(eventName, data)`: sends upstream when
the socket exists and is connected, otherwise only logs a warning. -/
def SocketService.emit (svc : SocketService) (eventName : String) (d : Payload) :
    List Action :=
  match svc.socket with
  | some s =>
    if s.connected then [Action.upstream eventName d] else [Action.warn eventName]
  | none => [Action.warn eventName]

/-- Embedding of `onProgress(callback)`: appends to the progress list. -/
def SocketService.onProgress (svc : SocketService) (cb : Callback) : SocketService :=
  { svc with callbacks := { svc.callbacks with progress := svc.callbacks.progress ++ [cb] } }

/-- Embedding of `onComplete(callback)`: appends to the complete list. -/
def SocketService.onComplete (svc : SocketService) (cb : Callback) : SocketService :=
  { svc with callbacks := { svc.callbacks with complete := svc.callbacks.complete ++ [cb] } }

/-- Embedding of `onError(callback)`: appends to the error list. -/
def SocketService.onError (svc : SocketService) (cb : Callback) : SocketService :=
  { svc with callbacks := { svc.callbacks with error := svc.callbacks.error ++ [cb] } }

/-- Embedding of `onConnect(callback)`: appends to the connect list. -/
def SocketService.onConnect (svc : SocketService) (cb : Callback) : SocketService :=
  { svc with callbacks := { svc.callbacks with connect := svc.callbacks.connect ++ [cb] } }

/-- Embedding of `onDisconnect(callback)`: appends to the disconnect list. -/
def SocketService.onDisconnect (svc : SocketService) (cb : Callback) : SocketService :=
  { svc with callbacks := { svc.callbacks with disconnect := svc.callbacks.disconnect ++ [cb] } }

/-- The listener invocations recorded in a trace, in order: event kind,
registry position, and the data passed. -/
def callsOf (t : List Action) : List (EventKind × Nat × Option Payload) :=
  t.filterMap fun a =>
    match a with
    | .invoke k i d => some (k, i, d)
    | _ => none

/-- Whether an action is an upstream send. -/
def Action.isUpstream : Action → Bool
  | .upstream _ _ => true
  | _ => false

/-! ## The FormHandler validators (results-display.js)

Form field values are modelled as character lists. `splitChar c` is the
semantics of `String.prototype.split` with the one-character separator `c`:
it always yields one more piece than there are separator occurrences, the
empty string splitting to a single empty piece. -/

/-- JavaScript `s.split(c)` for a one-character separator `c`, on the
character list of `s`. -/
def splitChar (c : Char) : List Char → List (List Char)
  | [] => [[]]
  | x :: xs =>
    if x = c then
      [] :: splitChar c xs
    else
      match splitChar c xs with
      | [] => [[x]]
      | y :: ys => (x :: y) :: ys

/-- Embedding of `FormHandler.isValidUTMFormat(utmString)`: split on `;`
and require of every entry that it contains `=` and that splitting it on
`=` yields exactly two pieces. -/
def isValidUTMFormat (utmString : List Char) : Bool :=
  (splitChar ';' utmString).all fun param =>
    param.contains '=' && (splitChar '=' param).length == 2

/-- The UTM branch of `FormHandler.validateAdvancedFields(form)`: when the
UTM input value is non-empty and `isValidUTMFormat` rejects it, an error is
surfaced and submission is blocked (the handler calls `preventDefault` and
returns false). Returns true exactly when submission is blocked by this
branch. -/
def utmFieldBlocks (value : List Char) : Bool :=
  if value.isEmpty then false else ! isValidUTMFormat value

/-- The character class `[a-zA-Z0-9]` of the domain regex. -/
def isAlnum (c : Char) : Bool :=
  ('a' ≤ c && c ≤ 'z') || ('A' ≤ c && c ≤ 'Z') || ('0' ≤ c && c ≤ '9')

/-- The character class `[a-zA-Z0-9-]` of the domain regex. -/
def isLdh (c : Char) : Bool :=
  isAlnum c || c = '-'

/-- An exact match of the label atom `[a-zA-Z0-9][a-zA-Z0-9-]{0,61}[a-zA-Z0-9]`
of the domain regex: an alphanumeric character, at most 61 letter-digit-hyphen
characters, and a final alphanumeric character. A list shorter than two
characters cannot be decomposed this way and is rejected. -/
def matchLabel : List Char → Bool
  | a :: b :: rest =>
    isAlnum a &&
      (match (b :: rest).getLast? with
       | some z => isAlnum z
       | none => false) &&
      (b :: rest).dropLast.all isLdh &&
      decide ((b :: rest).dropLast.length ≤ 61)
  | _ => false

/-- Embedding of `FormHandler.isValidDomain(domain)`, which anchors the
regex `^label(?:\.label)*$` with `label` the atom of `matchLabel`. Because
no character class of the label atom admits the dot, a full match of the
anchored regex exists exactly when every piece of the split on the dot
matches the label atom (the split is never empty, so at least one label is
required, as the regex demands). -/
def isValidDomain (domain : List Char) : Bool :=
  (splitChar '.' domain).all matchLabel

/-! ## Specification-side definitions, for comparison with the code -/

/-- The three candidate locations page-number resolution probes, in
priority order, with absent fields dropped. -/
def pageCandidates (item : ExtractionItem) : List JValue :=
  [item.page, item.attributes.bind Attributes.page,
    item.source_location.bind SourceLocation.page].filterMap id

/-- The resolution order as the claim words it: the direct `page` field if
present, else `attributes.page` if present, else `source_location.page` if
present, else the sentinel. Written from the claim for comparison with
`extractPageNumberCore`; presence alone decides, the value is used as-is. -/
def pageResolutionClaimed (sentinel : String) (item : ExtractionItem) : JValue :=
  (pageCandidates item).head?.getD (.jstr sentinel)

/-- The amended resolution order: the first truthy value among the direct
`page` field, `attributes.page` and `source_location.page`, in that order,
else the sentinel. Written from the amended claim for comparison with
`extractPageNumberCore`. -/
def pageResolutionAmended (sentinel : String) (item : ExtractionItem) : JValue :=
  ((pageCandidates item).find? JValue.truthy).getD (.jstr sentinel)

/-- The label shape the domain claim describes: length between 2 and 63,
an alphanumeric first and last character, and only alphanumerics and
hyphens in between. -/
def labelSpec (l : List Char) : Prop :=
  2 ≤ l.length ∧ l.length ≤ 63 ∧
    ∃ a mid z, l = a :: mid ++ [z] ∧ isAlnum a = true ∧ isAlnum z = true ∧
      ∀ c ∈ mid, isLdh c = true

/-! ## Concrete fixtures used by the witness theorems -/

/-- A well-formed progress payload for the scan id of the scenario in the
spec. -/
def payW : Payload :=
  { scan_id := some "abc123", body := "Page 3/10" }

/-- A payload tagged with a different scan id. -/
def payOther : Payload :=
  { scan_id := some "zzz999", body := "Page 3/10" }

/-- A malformed payload with no `scan_id` field. -/
def payNoId : Payload :=
  { scan_id := none, body := "Page 3/10" }

/-- A client for scan id abc123 with two progress listeners: the first
returns normally, the second throws. -/
def svcW : SocketService :=
  ((SocketService.construct "abc123").onProgress fun _ => .ok).onProgress
    fun _ => .threw "boom"

/-- A client holding a connected socket. -/
def svcConn : SocketService :=
  { SocketService.construct "abc123" with socket := some { connected := true } }

/-- An extraction item whose direct `page` field is present but falsy (0)
while `attributes.page` is 5. -/
def itemZeroPage : ExtractionItem :=
  { page := some (.jnum 0)
    attributes := some { page := some (.jnum 5) }
    source_location := none }

/-! ## Trace lemmas for the dispatch loop -/

/-- The middle segment a callback contributes besides its invocation holds
no listener invocation. -/
theorem callsOf_catchSegment (k : EventKind) (i : Nat) (r : CallResult) :
    callsOf (match r with
             | .ok => []
             | .threw m => [Action.logErr k i m]) = [] := by
  cases r <;> simp [callsOf]

/-- Splitting a trace splits its invocation list. -/
theorem callsOf_append (s t : List Action) :
    callsOf (s ++ t) = callsOf s ++ callsOf t := by
  simp [callsOf]

/-- The invocations of a dispatch loop started at position `i` are exactly
one per callback, in list order, at consecutive positions, all with the
same data. -/
theorem callsOf_triggerFrom (k : EventKind) (d : Option Payload) (i : Nat)
    (cbs : List Callback) :
    callsOf (triggerFrom k d i cbs) = (List.range cbs.length).map fun j => (k, i + j, d) := by
  induction cbs generalizing i with
  | nil => simp [triggerFrom, callsOf]
  | cons cb rest ih =>
    have hstep : triggerFrom k d i (cb :: rest) =
        Action.invoke k i d ::
          ((match cb d with
            | .ok => []
            | .threw m => [Action.logErr k i m]) ++ triggerFrom k d (i + 1) rest) := rfl
    rw [hstep]
    have hmid := callsOf_catchSegment k i (cb d)
    show (k, i, d) :: callsOf ((match cb d with
        | .ok => []
        | .threw m => [Action.logErr k i m]) ++ triggerFrom k d (i + 1) rest) = _
    rw [callsOf_append, hmid, List.nil_append, ih, List.length_cons,
      List.range_succ_eq_map, List.map_cons, List.map_map]
    have hfun : (fun j => (k, i + 1 + j, d)) = ((fun j => (k, i + j, d)) ∘ Nat.succ) := by
      funext j
      exact congrArg (fun m => (k, m, d)) (by omega)
    rw [hfun]
    exact congrArg₂ _ (congrArg (fun m => (k, m, d)) (by omega)) rfl

/-- The dispatch loop never sends upstream: its trace holds only
invocations and error logs. -/
theorem triggerFrom_filter_isUpstream (k : EventKind) (d : Option Payload) (i : Nat)
    (cbs : List Callback) :
    (triggerFrom k d i cbs).filter Action.isUpstream = [] := by
  induction cbs generalizing i with
  | nil => simp [triggerFrom]
  | cons cb rest ih =>
    cases hcb : cb d <;>
      simp [triggerFrom, hcb, List.filter_cons, Action.isUpstream, ih]

/-- When the callback at position `i` of the list throws `m`, the dispatch
loop started at position `s` logs that error. -/
theorem logErr_mem_triggerFrom (k : EventKind) (d : Option Payload)
    (cbs : List Callback) (s i : Nat) (h : i < cbs.length) (m : String)
    (hm : cbs.get ⟨i, h⟩ d = .threw m) :
    Action.logErr k (s + i) m ∈ triggerFrom k d s cbs := by
  induction cbs generalizing s i with
  | nil => simp at h
  | cons cb rest ih =>
    cases i with
    | zero =>
      have hcb : cb d = .threw m := hm
      simp [triggerFrom, hcb]
    | succ n =>
      have hn : n < rest.length := Nat.lt_of_succ_lt_succ h
      have hrec := ih (s + 1) n hn hm
      have harith : s + (n + 1) = s + 1 + n := by omega
      rw [harith]
      have hstep : triggerFrom k d s (cb :: rest) =
          Action.invoke k s d ::
            ((match cb d with
              | .ok => []
              | .threw mm => [Action.logErr k s mm]) ++ triggerFrom k d (s + 1) rest) := rfl
      rw [hstep]
      exact List.mem_cons_of_mem _ (List.mem_append_right _ hrec)

/-! ## The claims about the SocketService -/

/-- Claim C1: for every client bound to scan id `S`, an inbound
scan_progress, scan_complete or scan_error message whose scan_id equals `S`
invokes every listener registered for that event kind exactly once, in
registration order, passing the full payload; one whose scan_id differs
from `S` (including a missing scan_id) invokes no listener of any kind and
raises nothing: its trace is empty. -/
theorem claim_C1 (svc : SocketService) (mk : MsgKind) (d : Payload) :
    (d.scan_id = some svc.scanId →
      callsOf (svc.handleInbound mk d) =
        (List.range (svc.callbacks.lookup mk.eventOf).length).map
          fun i => (mk.eventOf, i, some d)) ∧
    (d.scan_id ≠ some svc.scanId → svc.handleInbound mk d = []) := by
  constructor
  · intro h
    rw [SocketService.handleInbound, if_pos h, SocketService.triggerCallbacks,
      callsOf_triggerFrom]
    simp
  · intro h
    rw [SocketService.handleInbound, if_neg h]

/-- Witness for C1: the two-listener client for abc123 dispatches a
matching payload to both progress listeners in order and discards a
mismatched one. -/
theorem claim_C1_witness :
    callsOf (svcW.handleInbound .scanProgress payW) =
      [(EventKind.progress, 0, some payW), (EventKind.progress, 1, some payW)] ∧
    svcW.handleInbound .scanProgress payOther = [] := by
  constructor
  · rw [(claim_C1 svcW .scanProgress payW).1 (by decide)]
    decide
  · exact (claim_C1 svcW .scanProgress payOther).2 (by decide)

/-- Claim C2: a listener that throws during dispatch has its error caught
and logged, and every listener of the same list is still invoked for the
same dispatch, in registration order; the dispatch function is total, so
nothing propagates out of it. -/
theorem claim_C2 (svc : SocketService) (k : EventKind) (d : Option Payload)
    (i : Nat) (h : i < (svc.callbacks.lookup k).length) (m : String)
    (hm : (svc.callbacks.lookup k).get ⟨i, h⟩ d = .threw m) :
    Action.logErr k i m ∈ svc.triggerCallbacks k d ∧
    callsOf (svc.triggerCallbacks k d) =
      (List.range (svc.callbacks.lookup k).length).map fun j => (k, j, d) := by
  constructor
  · have := logErr_mem_triggerFrom k d (svc.callbacks.lookup k) 0 i h m hm
    simpa [SocketService.triggerCallbacks] using this
  · rw [SocketService.triggerCallbacks, callsOf_triggerFrom]
    simp

/-- Witness for C2: in the two-listener client the second progress listener
throws boom; the error is logged and both listeners are still invoked. -/
theorem claim_C2_witness :
    Action.logErr .progress 1 "boom" ∈ svcW.triggerCallbacks .progress (some payW) ∧
    callsOf (svcW.triggerCallbacks .progress (some payW)) =
      (List.range (svcW.callbacks.lookup .progress).length).map
        fun j => (EventKind.progress, j, some payW) :=
  claim_C2 svcW .progress (some payW) 1 (by decide) "boom" rfl

/-- Claim C3: an inbound scan_progress, scan_complete or scan_error payload
with no scan_id field is discarded: the handler produces no action at all,
so no listener of any kind is invoked and no error is raised. -/
theorem claim_C3 (svc : SocketService) (mk : MsgKind) (d : Payload)
    (h : d.scan_id = none) :
    svc.handleInbound mk d = [] := by
  have hne : d.scan_id ≠ some svc.scanId := by
    rw [h]
    simp
  rw [SocketService.handleInbound, if_neg hne]

/-- Witness for C3: the abc123 client discards a payload lacking a
scan_id. -/
theorem claim_C3_witness : svcW.handleInbound .scanProgress payNoId = [] :=
  claim_C3 svcW .scanProgress payNoId rfl

/-- Claim C4: emit sends the message upstream exactly when the channel is
currently connected; otherwise its entire trace is one warning, so nothing
is sent, nothing is thrown, and no message is queued (the service state
holds no queue and emit does not modify it). -/
theorem claim_C4 (svc : SocketService) (eventName : String) (d : Payload) :
    (svc.connected = true → svc.emit eventName d = [Action.upstream eventName d]) ∧
    (svc.connected = false → svc.emit eventName d = [Action.warn eventName]) := by
  obtain ⟨sid, sock, cbs⟩ := svc
  rcases sock with _ | ⟨c⟩
  · simp [SocketService.connected, SocketService.emit]
  · cases c <;> simp [SocketService.connected, SocketService.emit]

/-- Witness for C4: a connected client sends, a freshly constructed
(disconnected) client only warns. -/
theorem claim_C4_witness :
    svcConn.emit "ping" payW = [Action.upstream "ping" payW] ∧
    (SocketService.construct "abc123").emit "ping" payW = [Action.warn "ping"] :=
  ⟨(claim_C4 svcConn "ping" payW).1 rfl,
    (claim_C4 (SocketService.construct "abc123") "ping" payW).2 rfl⟩

/-- Claim C5: on successful channel establishment the client first sends
exactly one client_ready message carrying the bound scan id, and only then
invokes every registered connect listener, in order, with no payload (the
trace head is the send, it is the only upstream action, and the
invocations are exactly the connect list with null data). -/
theorem claim_C5 (svc : SocketService) :
    svc.onChannelConnect.head? =
      some (Action.upstream "client_ready" { scan_id := some svc.scanId, body := "" }) ∧
    svc.onChannelConnect.filter Action.isUpstream =
      [Action.upstream "client_ready" { scan_id := some svc.scanId, body := "" }] ∧
    callsOf svc.onChannelConnect =
      (List.range (svc.callbacks.lookup .connect).length).map
        fun i => (EventKind.connect, i, (none : Option Payload)) := by
  refine ⟨rfl, ?_, ?_⟩
  · rw [SocketService.onChannelConnect, List.filter_cons]
    simp only [Action.isUpstream, if_pos]
    rw [SocketService.triggerCallbacks, triggerFrom_filter_isUpstream]
  · have hdrop : callsOf svc.onChannelConnect =
        callsOf (svc.triggerCallbacks .connect) := by
      rw [SocketService.onChannelConnect]
      rfl
    rw [hdrop, SocketService.triggerCallbacks, callsOf_triggerFrom]
    simp

/-- Claim C8: construction stores the scan id, opens no socket, and leaves
all five listener lists empty; disconnect on a client with no open socket
returns the state unchanged and performs no action. -/
theorem claim_C8 (s : String) :
    (SocketService.construct s).scanId = s ∧
    (SocketService.construct s).socket = none ∧
    (SocketService.construct s).callbacks.progress = [] ∧
    (SocketService.construct s).callbacks.complete = [] ∧
    (SocketService.construct s).callbacks.error = [] ∧
    (SocketService.construct s).callbacks.connect = [] ∧
    (SocketService.construct s).callbacks.disconnect = [] ∧
    (SocketService.construct s).disconnect = (SocketService.construct s, []) :=
  ⟨rfl, rfl, rfl, rfl, rfl, rfl, rfl, rfl⟩

/-! ## Page-number resolution claims -/

/-- The duplicated `_extractPageNumber` method computes exactly the amended
resolution: the first truthy value among the direct page field,
`attributes.page` and `source_location.page`, else the sentinel. The proof
is an exhaustive case split over the presence of the three fields and the
truthiness of their values. -/
theorem extractPageNumberCore_eq_amended (s : String) (item : ExtractionItem) :
    extractPageNumberCore s item = pageResolutionAmended s item := by
  obtain ⟨p, attrs, sl⟩ := item
  rcases p with _ | v <;> rcases attrs with _ | ⟨_ | av⟩ <;> rcases sl with _ | ⟨_ | sv⟩ <;>
    simp [extractPageNumberCore, pageResolutionAmended, pageCandidates, fieldTruthy,
      List.find?_cons] <;>
    split_ifs <;> simp_all

/-- Counterexample to claim C6 as stated: on an item whose direct page
field is present but 0 and whose attributes.page is 5, the code resolves
to 5 while presence-order resolution would give 0. -/
theorem claim_C6_counterexample :
    ResultsDisplay.extractPageNumber itemZeroPage ≠
      pageResolutionClaimed "unknown" itemZeroPage := by
  decide

/-- Claim C6 as amended: for every extraction item the page number used
for display grouping is the first truthy value among the direct page
field, attributes.page and source_location.page, in that order, else the
sentinel (unknown in the per-page results display, N/A in the AI table
display); a present-but-falsy field is skipped. -/
theorem claim_C6 (item : ExtractionItem) :
    ResultsDisplay.extractPageNumber item = pageResolutionAmended "unknown" item ∧
    AIDisplay.extractPageNumber item = pageResolutionAmended "N/A" item :=
  ⟨extractPageNumberCore_eq_amended "unknown" item,
    extractPageNumberCore_eq_amended "N/A" item⟩

/-- Claim C9: an extraction item whose direct page field is present but
falsy resolves exactly as if the field were absent (falling through to
attributes.page, then source_location.page, then the sentinel), and only a
truthy direct page value is returned as-is. -/
theorem claim_C9 (item : ExtractionItem) (v : JValue) (h : item.page = some v) :
    (v.truthy = false →
      ResultsDisplay.extractPageNumber item =
        ResultsDisplay.extractPageNumber { item with page := none } ∧
      AIDisplay.extractPageNumber item =
        AIDisplay.extractPageNumber { item with page := none }) ∧
    (v.truthy = true →
      ResultsDisplay.extractPageNumber item = v ∧
      AIDisplay.extractPageNumber item = v) := by
  obtain ⟨p, attrs, sl⟩ := item
  simp only [ExtractionItem.mk.injEq] at h ⊢
  subst h
  constructor
  · intro hv
    constructor <;>
      simp [ResultsDisplay.extractPageNumber, AIDisplay.extractPageNumber,
        extractPageNumberCore, fieldTruthy, hv]
  · intro hv
    constructor <;>
      simp [ResultsDisplay.extractPageNumber, AIDisplay.extractPageNumber,
        extractPageNumberCore, fieldTruthy, hv]

/-- Witness for C9: the item with direct page 0 and attributes.page 5
resolves as if its direct page field were absent. -/
theorem claim_C9_witness :
    ResultsDisplay.extractPageNumber itemZeroPage =
      ResultsDisplay.extractPageNumber { itemZeroPage with page := none } ∧
    AIDisplay.extractPageNumber itemZeroPage =
      AIDisplay.extractPageNumber { itemZeroPage with page := none } :=
  (claim_C9 itemZeroPage (.jnum 0) rfl).1 (by decide)

/-! ## UTM validator claims -/

/-- The split of a character list is never the empty list. -/
theorem splitChar_ne_nil (c : Char) (l : List Char) : splitChar c l ≠ [] := by
  induction l with
  | nil => simp [splitChar]
  | cons x xs ih =>
    rw [splitChar]
    by_cases hx : x = c
    · simp [hx]
    · rw [if_neg hx]
      cases hs : splitChar c xs with
      | nil => simp
      | cons y ys => simp

/-- Splitting on a character yields one more piece than the character has
occurrences, exactly as `String.prototype.split` does. -/
theorem length_splitChar (c : Char) (l : List Char) :
    (splitChar c l).length = l.count c + 1 := by
  induction l with
  | nil => simp [splitChar]
  | cons x xs ih =>
    rw [splitChar]
    by_cases hx : x = c
    · rw [if_pos hx]
      simp [List.count_cons, hx, ih]
    · rw [if_neg hx]
      cases hs : splitChar c xs with
      | nil => exact absurd hs (splitChar_ne_nil c xs)
      | cons y ys =>
        have h2 := ih
        rw [hs] at h2
        simp only [List.length_cons] at h2 ⊢
        simp only [List.count_cons, beq_iff_eq, if_neg hx]
        omega

/-- A UTM entry passes the per-entry check exactly when it holds exactly
one equals sign. -/
theorem utmEntryOk_iff (p : List Char) :
    (p.contains '=' && (splitChar '=' p).length == 2) = true ↔ p.count '=' = 1 := by
  rw [Bool.and_eq_true, length_splitChar]
  constructor
  · rintro ⟨-, h2⟩
    rw [beq_iff_eq] at h2
    omega
  · intro h
    have hmem : ('=') ∈ p := List.count_pos_iff.mp (by omega)
    have hc : p.contains '=' = true ↔ ('=') ∈ p := by simp [List.contains]
    refine ⟨hc.mpr hmem, ?_⟩
    rw [beq_iff_eq]
    omega

/-- Claim C7: for a non-empty UTM input string, submission is blocked (and
the user-visible message surfaced) exactly when some semicolon-separated
entry does not hold exactly one equals sign. -/
theorem claim_C7 (s : List Char) (h : s ≠ []) :
    utmFieldBlocks s = true ↔ ∃ p ∈ splitChar ';' s, p.count '=' ≠ 1 := by
  have hval : isValidUTMFormat s = true ↔ ∀ p ∈ splitChar ';' s, p.count '=' = 1 := by
    rw [isValidUTMFormat, List.all_eq_true]
    constructor
    · intro hall p hp
      exact (utmEntryOk_iff p).mp (hall p hp)
    · intro hall p hp
      exact (utmEntryOk_iff p).mpr (hall p hp)
  rw [utmFieldBlocks, if_neg (by simpa [List.isEmpty_iff] using h)]
  constructor
  · intro hb
    by_contra hno
    push_neg at hno
    have hv : isValidUTMFormat s = true := hval.mpr hno
    rw [hv] at hb
    simp at hb
  · rintro ⟨p, hp, hne⟩
    cases hv : isValidUTMFormat s with
    | false => simp
    | true => exact absurd (hval.mp hv p hp) hne

/-- Witness for C7: the one-entry input a has no equals sign and is
blocked. -/
theorem claim_C7_witness :
    (String.toList "a") ≠ [] ∧
    (utmFieldBlocks (String.toList "a") = true ↔
      ∃ p ∈ splitChar ';' (String.toList "a"), p.count '=' ≠ 1) :=
  ⟨by decide, claim_C7 (String.toList "a") (by decide)⟩

/-! ## Domain validator claim -/

/-- The label atom of the regex matches exactly the label shape of the
claim: length 2 to 63, alphanumeric first and last character, only
alphanumerics and hyphens in between. -/
theorem matchLabel_iff (l : List Char) : matchLabel l = true ↔ labelSpec l := by
  constructor
  · intro h
    rcases l with _ | ⟨a, _ | ⟨b, rest⟩⟩
    · simp [matchLabel] at h
    · simp [matchLabel] at h
    · have htne : b :: rest ≠ [] := by simp
      have hgl : (b :: rest).getLast? = some ((b :: rest).getLast htne) :=
        List.getLast?_eq_getLast _ htne
      simp only [matchLabel, hgl, Bool.and_eq_true, decide_eq_true_eq] at h
      obtain ⟨⟨⟨ha, hz⟩, hmid⟩, hlen⟩ := h
      have hdecomp : (b :: rest).dropLast ++ [(b :: rest).getLast htne] = b :: rest :=
        List.dropLast_append_getLast htne
      have hlength : (b :: rest).length = (b :: rest).dropLast.length + 1 := by
        conv_lhs => rw [← hdecomp]
        simp
      refine ⟨?_, ?_, a, (b :: rest).dropLast, (b :: rest).getLast htne, ?_, ha, hz, ?_⟩
      · simp
      · simp only [List.length_cons] at hlength ⊢
        omega
      · rw [List.cons_append, hdecomp]
      · exact List.all_eq_true.mp hmid
  · rintro ⟨h2, h63, a, mid, z, hl, ha, hz, hmid⟩
    subst hl
    cases mid with
    | nil =>
      simp [matchLabel, ha, hz]
    | cons m ms =>
      have hlen : (m :: ms).length ≤ 61 := by
        simp only [List.cons_append, List.length_cons, List.length_append,
          List.length_nil] at h63 ⊢
        omega
      have hgl : (m :: (ms ++ [z])).getLast? = some z :=
        @List.getLast?_concat _ z (m :: ms)
      have hdl : (m :: (ms ++ [z])).dropLast = m :: ms :=
        @List.dropLast_concat _ (m :: ms) z
      simp only [List.cons_append, matchLabel, hgl, hdl, Bool.and_eq_true,
        decide_eq_true_eq]
      exact ⟨⟨⟨ha, hz⟩, List.all_eq_true.mpr hmid⟩, hlen⟩

/-- Claim C10: the domain validator accepts a domain exactly when every
dot-separated label has length 2 to 63, begins and ends alphanumeric, and
holds only alphanumerics and hyphens in between; in particular the
single-character domain a and the domain x.co (single-character first
label) are rejected. -/
theorem claim_C10 :
    (∀ d : List Char, isValidDomain d = true ↔ ∀ l ∈ splitChar '.' d, labelSpec l) ∧
    isValidDomain (String.toList "a") = false ∧
    isValidDomain (String.toList "x.co") = false := by
  refine ⟨?_, by decide, by decide⟩
  intro d
  rw [isValidDomain, List.all_eq_true]
  constructor
  · intro h l hl
    exact (matchLabel_iff l).mp (h l hl)
  · intro h l hl
    exact (matchLabel_iff l).mpr (h l hl)

end QRScan
